import Mathlib

/-!
Shallow embedding of `src/unicampi/repositories/crawlers/base.py`:
the `OnlineFilter` query filter, the `ContentFinder` text locator and the
`CrawlerRepository` orchestration methods, together with theorems about them.

Python values appearing in records and queries are modelled by the inductive
type `Value` (the absent-field placeholder `None`, strings, integers and
heterogeneous lists).  Python exceptions are modelled by `PyError`, and every
operation that can raise returns an `Except PyError` result.
-/

namespace Unicampi

/-- Model of the Python exception kinds the code raises or catches. -/
inductive PyError where
  | typeError : PyError
  | indexError : PyError
  | keyError : String → PyError
  | unboundLocalError : PyError
  | runtimeError : String → PyError
  | other : String → PyError
deriving DecidableEq

/-- Model of the Python values stored in record fields and query targets:
`Value.none` is the `None` placeholder returned by `dict.get` for a missing
field. -/
inductive Value where
  | none : Value
  | str : String → Value
  | int : Int → Value
  | list : List Value → Value

mutual

def Value.decEq : (a b : Value) → Decidable (a = b)
  | .none, .none => isTrue rfl
  | .none, .str _ => isFalse (fun h => Value.noConfusion h)
  | .none, .int _ => isFalse (fun h => Value.noConfusion h)
  | .none, .list _ => isFalse (fun h => Value.noConfusion h)
  | .str _, .none => isFalse (fun h => Value.noConfusion h)
  | .str s, .str t =>
    match String.decEq s t with
    | isTrue h => isTrue (by rw [h])
    | isFalse h => isFalse (fun hh => h (by injection hh))
  | .str _, .int _ => isFalse (fun h => Value.noConfusion h)
  | .str _, .list _ => isFalse (fun h => Value.noConfusion h)
  | .int _, .none => isFalse (fun h => Value.noConfusion h)
  | .int _, .str _ => isFalse (fun h => Value.noConfusion h)
  | .int m, .int n =>
    match Int.instDecidableEq m n with
    | isTrue h => isTrue (by rw [h])
    | isFalse h => isFalse (fun hh => h (by injection hh))
  | .int _, .list _ => isFalse (fun h => Value.noConfusion h)
  | .list _, .none => isFalse (fun h => Value.noConfusion h)
  | .list _, .str _ => isFalse (fun h => Value.noConfusion h)
  | .list _, .int _ => isFalse (fun h => Value.noConfusion h)
  | .list l, .list m =>
    match Value.decEqList l m with
    | isTrue h => isTrue (by rw [h])
    | isFalse h => isFalse (fun hh => h (by injection hh))

def Value.decEqList : (l m : List Value) → Decidable (l = m)
  | [], [] => isTrue rfl
  | [], _ :: _ => isFalse (fun h => List.noConfusion h)
  | _ :: _, [] => isFalse (fun h => List.noConfusion h)
  | a :: as, b :: bs =>
    match Value.decEq a b, Value.decEqList as bs with
    | isTrue h1, isTrue h2 => isTrue (by rw [h1, h2])
    | isFalse h1, _ => isFalse (fun hh => h1 (by injection hh))
    | isTrue _, isFalse h2 => isFalse (fun hh => h2 (by injection hh))

end

instance : DecidableEq Value := Value.decEq

/-- A record is a Python dict from field names to values, modelled as an
association list. -/
abbrev Record := List (String × Value)

/-- A query is a Python (insertion-ordered) dict from compound keys
(`field` or `field__operator`) to target values. -/
abbrev Query := List (String × Value)

/-- Python `entry.get(field)`: field lookup with the `None` default. -/
def getField (entry : Record) (field : String) : Value :=
  match entry.lookup field with
  | some v => v
  | Option.none => Value.none

/-! ### Python string primitives

`str.split`, `str.strip`, `str.join` and substring membership (`in` on
strings), modelled over character lists so that they compute by kernel
reduction.  `pySplitAux` is fuel-indexed (fuel = length of the character
list) to keep the recursion structural. -/

/-- One step list of Python `s.split(sep)` over character lists; `fuel` bounds
the recursion depth and is always called with at least the list length. -/
def pySplitAux (sep : List Char) : Nat → List Char → List (List Char)
  | _, [] => [[]]
  | 0, l => [l]
  | Nat.succ fuel, a :: rest =>
    if sep.isPrefixOf (a :: rest) && !sep.isEmpty then
      [] :: pySplitAux sep fuel ((a :: rest).drop sep.length)
    else
      match pySplitAux sep fuel rest with
      | [] => [[a]]
      | g :: gs => (a :: g) :: gs

/-- Python `s.split(sep)` for a non-empty separator. -/
def pySplit (s sep : String) : List String :=
  (pySplitAux sep.data s.data.length s.data).map (fun cs => String.mk cs)

/-- Python `s.strip()`: drop leading and trailing whitespace. -/
def pyStrip (s : String) : String :=
  String.mk (((s.data.dropWhile Char.isWhitespace).reverse.dropWhile
    Char.isWhitespace).reverse)

/-- Python `sep.join(parts)`. -/
def pyJoin (sep : String) : List String → String
  | [] => ""
  | [p] => p
  | p :: rest => p ++ sep ++ pyJoin sep rest

/-- Boolean contiguous-sublist test, `isInfixOfL needle hay`. -/
def isInfixOfL [BEq α] : List α → List α → Bool
  | needle, [] => needle.isEmpty
  | needle, hay@(_ :: t) => needle.isPrefixOf hay || isInfixOfL needle t

/-- Python `needle in hay` on strings: substring containment. -/
def strIn (needle hay : String) : Bool :=
  isInfixOfL needle.data hay.data

/-! ### Python membership and the operator table (`OnlineFilter.VALID_OPERATORS`) -/

/-- Python `a in b`: membership of `a` in the container `b`.  Lists test
elementwise equality, strings test substring containment of a string operand;
any other container (including the `None` placeholder) raises `TypeError`. -/
def Value.mem (a b : Value) : Except PyError Bool :=
  match b with
  | .list l => .ok (l.any (fun x => decide (x = a)))
  | .str s =>
    match a with
    | .str t => .ok (strIn t s)
    | _ => .error .typeError
  | _ => .error .typeError

namespace OnlineFilter

/-- The `VALID_OPERATORS` dict: operator name to predicate function.  Each
entry mirrors one lambda of the source table; note that `not_contains` is
bound to the same predicate as `contains`. -/
def VALID_OPERATORS : List (String × (Record → String → Value → Except PyError Bool)) :=
  [("equals", fun entry field value => .ok (decide (getField entry field = value))),
   ("not_equals", fun entry field value => .ok (decide (getField entry field ≠ value))),
   ("in", fun entry field value => Value.mem (getField entry field) value),
   ("not_in", fun entry field value => (Value.mem (getField entry field) value).map (fun b => !b)),
   ("contains", fun entry field value => Value.mem value (getField entry field)),
   ("not_contains", fun entry field value => Value.mem value (getField entry field))]

/-- Apply the named operator from the table; an unknown operator name is the
`RuntimeError` the source raises before dispatching. -/
def applyOperator (operator : String) (entry : Record) (field : String)
    (value : Value) : Except PyError Bool :=
  match VALID_OPERATORS.lookup operator with
  | some f => f entry field value
  | Option.none => .error (.runtimeError ("unknown operator \x7b" ++ operator ++ "\x7d"))

/-- Resolve a compound query key into its (field, operator) pair:
split on `__`; a single part means the default `equals` operator, otherwise
the last part names the operator and the rest rejoined is the field. -/
def resolveKey (key : String) : String × String :=
  let parts := pySplit key "__"
  match parts with
  | [] => ("", "equals")
  | [f] => (f, "equals")
  | _ => (pyJoin "__" parts.dropLast, parts.getLastD "")

/-- Evaluate one query item (compound key and target value) on an entry. -/
def evalPredicate (kv : String × Value) (entry : Record) : Except PyError Bool :=
  let fo := resolveKey kv.1
  applyOperator fo.2 entry fo.1 kv.2

/-- The inner loop of `commit`: conjunction over the query items in order,
short-circuiting on the first failing predicate. -/
def matchesEntry (query : Query) (entry : Record) : Except PyError Bool :=
  match query with
  | [] => .ok true
  | kv :: rest =>
    match evalPredicate kv entry with
    | .error e => .error e
    | .ok false => .ok false
    | .ok true => matchesEntry rest entry

/-- The method `OnlineFilter(**query).commit(entries)`: keep, in order, the entries on
which every predicate of the query holds. -/
def commit (query : Query) : List Record → Except PyError (List Record)
  | [] => .ok []
  | entry :: rest =>
    match matchesEntry query entry with
    | .error e => .error e
    | .ok m =>
      match commit query rest with
      | .error e => .error e
      | .ok tail => .ok (if m then entry :: tail else tail)

end OnlineFilter

/-! ### `ContentFinder` -/

/-- The constructor of `ContentFinder`: split the data on the separator,
strip each piece and keep the non-empty ones. -/
def contentSplit (data separator : String) : List String :=
  ((pySplit data separator).map pyStrip).filter (fun s => !(s == ""))

/-- The anchor-search loop: index of the first element satisfying `p`. -/
def findFirstIdx (p : α → Bool) : List α → Option Nat
  | [] => Option.none
  | a :: rest =>
    if p a then some 0 else (findFirstIdx p rest).map (fun i => i + 1)

/-- Normalize a Python index: negative indices count from the end. -/
def pyNorm (len : Nat) (i : Int) : Int :=
  if i < 0 then i + len else i

/-- Clamp a normalized Python slice bound into `[0, len]`. -/
def pyClampIdx (len : Nat) (i : Int) : Nat :=
  min (pyNorm len i).toNat len

/-- Python `l[a:b]` slicing with the usual negative-index and clamping
semantics. -/
def pySlice (l : List α) (a b : Int) : List α :=
  (l.take (pyClampIdx l.length b)).drop (pyClampIdx l.length a)

/-- Python `l[i]` indexing; `none` is the `IndexError` case. -/
def pyGet (l : List α) (i : Int) : Option α :=
  let j := pyNorm l.length i
  if 0 ≤ j then l.get? j.toNat else Option.none

/-- Truthiness of the `count` argument: `None` and `0` are falsy. -/
def truthyCount : Option Int → Bool
  | some c => !(c == 0)
  | Option.none => false

/-- Truthiness of the `end_pattern` argument: `None` and `""` are falsy. -/
def truthyPattern : Option String → Bool
  | some s => !(s == "")
  | Option.none => false

/-- Result of `find_by_content`: either a single segment (the `else` branch)
or a list of segments (the slice branches). -/
inductive LocateResult where
  | one : String → LocateResult
  | many : List String → LocateResult
deriving DecidableEq

/-- The method `ContentFinder.find_by_content` on an already-split segment list.
An unset `start_at` or `end_idx` is the `UnboundLocalError` the source hits
when a scan finds no match; the out-of-range single-index case is
`IndexError`. -/
def findByContent (split : List String) (pattern : String) (offset : Int)
    (count : Option Int) (endPattern : Option String) :
    Except PyError LocateResult :=
  match findFirstIdx (fun piece => strIn pattern piece) split with
  | Option.none => .error .unboundLocalError
  | some startAt =>
    if truthyCount count then
      .ok (.many (pySlice split ((startAt : Int) + offset)
        ((startAt : Int) + count.getD 0)))
    else if truthyPattern endPattern then
      match findFirstIdx (fun piece => strIn (endPattern.getD "") piece)
          (split.drop startAt) with
      | Option.none => .error .unboundLocalError
      | some j =>
        .ok (.many (pySlice split ((startAt : Int) + offset)
          ((startAt + j : Nat) : Int)))
    else
      match pyGet split ((startAt : Int) + offset) with
      | Option.none => .error .indexError
      | some s => .ok (.one s)

/-- Convenience form `ContentFinder(data).find_by_content(...)` with the default newline
separator. -/
def locate (data pattern : String) (offset : Int) (count : Option Int)
    (endPattern : Option String) : Except PyError LocateResult :=
  findByContent (contentSplit data "\n") pattern offset count endPattern

/-! ### `CrawlerRepository` -/

namespace CrawlerRepository

/-- The `_assert_valid_query` condition: the required querying fields are a
subset of the query keys. -/
def validQuery (required : List String) (query : Query) : Bool :=
  required.all (fun r => query.any (fun kv => kv.1 == r))

/-- The error raised by `_assert_valid_query`. -/
def requiredFieldsError (required : List String) : PyError :=
  .runtimeError ("Offerings must be filtered by " ++ pyJoin ", " required ++
    ". Only then they be fetched.")

/-- The method `CrawlerRepository.all()`: validate the query, consult the
`_fetch_and_parse_all` hook (its outcome is the `fetched` argument), then
re-filter with an `OnlineFilter` built from the non-required query items. -/
def all (required : List String) (query : Query)
    (fetched : Except PyError (List Record)) : Except PyError (List Record) :=
  if validQuery required query then
    match fetched with
    | .error e => .error e
    | .ok entries =>
      OnlineFilter.commit (query.filter (fun kv => !(required.contains kv.1))) entries
  else
    .error (requiredFieldsError required)

/-- Lookup-class exceptions caught by `find`. -/
def isLookupError : PyError → Bool
  | .indexError => true
  | .keyError _ => true
  | .unboundLocalError => true
  | _ => false

/-- The method `CrawlerRepository.find(id)`: pass a successful `_fetch_and_parse_one`
result through; turn lookup-class errors into the uniform not-found
`KeyError`; let every other error propagate. -/
def find (ident : String) (fetched : Except PyError Record) :
    Except PyError Record :=
  match fetched with
  | .ok r => .ok r
  | .error e =>
    if isLookupError e then .error (.keyError ("unknown entry " ++ ident))
    else .error e

end CrawlerRepository

/-- Decidable equality for `Except`, used to evaluate results on concrete
inputs. -/
instance exceptDecEq [DecidableEq ε] [DecidableEq α] : DecidableEq (Except ε α)
  | .error e1, .error e2 =>
    match decEq e1 e2 with
    | isTrue h => isTrue (by rw [h])
    | isFalse h => isFalse (fun hh => h (by injection hh))
  | .error _, .ok _ => isFalse (fun h => Except.noConfusion h)
  | .ok _, .error _ => isFalse (fun h => Except.noConfusion h)
  | .ok a1, .ok a2 =>
    match decEq a1 a2 with
    | isTrue h => isTrue (by rw [h])
    | isFalse h => isFalse (fun hh => h (by injection hh))

/-- Specification-side matching predicate: every item of the query, each
resolved and evaluated independently on the entry, evaluates to a successful
`true`. -/
def OnlineFilter.matchesAll (query : Query) (entry : Record) : Bool :=
  query.all (fun kv => decide (OnlineFilter.evalPredicate kv entry = Except.ok true))

/-! ## Helper lemmas -/

namespace OnlineFilter

theorem applyOperator_equals (entry : Record) (field : String) (v : Value) :
    applyOperator "equals" entry field v =
      .ok (decide (getField entry field = v)) := rfl

theorem applyOperator_not_equals (entry : Record) (field : String) (v : Value) :
    applyOperator "not_equals" entry field v =
      .ok (decide (getField entry field ≠ v)) := rfl

theorem applyOperator_in (entry : Record) (field : String) (v : Value) :
    applyOperator "in" entry field v =
      Value.mem (getField entry field) v := rfl

theorem applyOperator_not_in (entry : Record) (field : String) (v : Value) :
    applyOperator "not_in" entry field v =
      (Value.mem (getField entry field) v).map (fun b => !b) := rfl

theorem applyOperator_contains (entry : Record) (field : String) (v : Value) :
    applyOperator "contains" entry field v =
      Value.mem v (getField entry field) := rfl

theorem applyOperator_not_contains (entry : Record) (field : String) (v : Value) :
    applyOperator "not_contains" entry field v =
      Value.mem v (getField entry field) := rfl

/-- The short-circuiting conjunction of `commit` succeeds with `true` exactly
when every query item evaluates, independently, to a successful `true`. -/
theorem matchesEntry_ok_true_iff (query : Query) (entry : Record) :
    matchesEntry query entry = .ok true ↔ matchesAll query entry = true := by
  induction query with
  | nil => simp [matchesEntry, matchesAll]
  | cons kv rest ih =>
    cases hp : evalPredicate kv entry with
    | error e => simp [matchesEntry, matchesAll, hp]
    | ok b =>
      cases b with
      | false => simp [matchesEntry, matchesAll, hp]
      | true => simpa [matchesEntry, matchesAll, hp] using ih

/-- When the query matcher is total on the records with Boolean outcome `p`,
`commit` is exactly the order-preserving filter by `p`. -/
theorem commit_eq_filter (query : Query) (p : Record → Bool)
    (h : ∀ e : Record, matchesEntry query e = .ok (p e)) :
    ∀ entries : List Record, commit query entries = .ok (entries.filter p) := by
  intro entries
  induction entries with
  | nil => simp [commit]
  | cons e rest ih =>
    simp only [commit, h e, ih, List.filter_cons]

end OnlineFilter

/-- The anchor-search loop returns the index of the first hit: if `p` holds at
`i` and fails strictly before `i`, the result is `some i`. -/
theorem findFirstIdx_eq_some (p : α → Bool) (d : α) :
    ∀ (l : List α) (i : Nat), i < l.length → p (l.getD i d) = true →
      (∀ j, j < i → p (l.getD j d) = false) → findFirstIdx p l = some i := by
  intro l
  induction l with
  | nil => intro i hi; exact absurd hi (by simp)
  | cons a t ih =>
    intro i hi hp hmin
    cases i with
    | zero =>
      simp only [List.getD_cons_zero] at hp
      simp [findFirstIdx, hp]
    | succ n =>
      have ha : p a = false := by
        have := hmin 0 (Nat.succ_pos n)
        simpa using this
      have ht : findFirstIdx p t = some n := by
        refine ih n (by simpa using hi) (by simpa using hp) ?_
        intro j hj
        have := hmin (j + 1) (Nat.succ_lt_succ hj)
        simpa using this
      simp [findFirstIdx, ha, ht]

/-- The anchor-search loop finds nothing when no element satisfies `p`. -/
theorem findFirstIdx_eq_none (p : α → Bool) :
    ∀ l : List α, (∀ a ∈ l, p a = false) → findFirstIdx p l = Option.none := by
  intro l
  induction l with
  | nil => intro _; rfl
  | cons a t ih =>
    intro h
    have ha : p a = false := h a (by simp)
    have ht := ih (fun x hx => h x (by simp [hx]))
    simp [findFirstIdx, ha, ht]

/-- Indexing with default into a dropped list shifts the index. -/
theorem getD_drop_eq (l : List α) (d : α) :
    ∀ (i j : Nat), (l.drop i).getD j d = l.getD (i + j) d := by
  induction l with
  | nil => intro i j; simp [List.getD]
  | cons a t ih =>
    intro i j
    cases i with
    | zero => simp
    | succ n =>
      have hh := ih n j
      rw [List.drop_succ_cons, hh, Nat.succ_add, List.getD_cons_succ]

/-! ## Claim theorems -/

/-- C1: whenever `OnlineFilter.commit` returns a list, that list is exactly
the order-preserving sublist of the input consisting of the records on which
every predicate of the query (each obtained by resolving its compound key and
evaluated independently) holds. -/
theorem claim_C1 (query : Query) (entries res : List Record)
    (h : OnlineFilter.commit query entries = .ok res) :
    res = entries.filter (fun e => OnlineFilter.matchesAll query e) := by
  induction entries generalizing res with
  | nil =>
    simp only [OnlineFilter.commit] at h
    injection h with h
    simp [h.symm]
  | cons e rest ih =>
    simp only [OnlineFilter.commit] at h
    cases hm : OnlineFilter.matchesEntry query e with
    | error err => rw [hm] at h; exact absurd h (by simp)
    | ok m =>
      rw [hm] at h
      cases hc : OnlineFilter.commit query rest with
      | error err => rw [hc] at h; exact absurd h (by simp)
      | ok tail =>
        rw [hc] at h
        injection h with h
        have htail := ih tail hc
        rw [List.filter_cons]
        cases m with
        | true =>
          have hma : OnlineFilter.matchesAll query e = true :=
            (OnlineFilter.matchesEntry_ok_true_iff query e).mp hm
          simp [← h, hma, htail]
        | false =>
          have hma : OnlineFilter.matchesAll query e = false := by
            cases hx : OnlineFilter.matchesAll query e with
            | false => rfl
            | true =>
              have := (OnlineFilter.matchesEntry_ok_true_iff query e).mpr hx
              rw [hm] at this
              exact absurd this (by simp)
          simp [← h, hma, htail]

/-- C1 witness: the docstring example, evaluated concretely. -/
theorem claim_C1_witness :
    OnlineFilter.commit [("name__in", Value.list [.str "lucas", .str "jessica"])]
      [[("name", Value.str "lucas")], [("name", Value.str "kelly")],
       [("name", Value.str "adam")], [("name", Value.str "jessica")]] =
      .ok [[("name", Value.str "lucas")], [("name", Value.str "jessica")]] ∧
    [[("name", Value.str "lucas")], [("name", Value.str "jessica")]] =
      ([[("name", Value.str "lucas")], [("name", Value.str "kelly")],
        [("name", Value.str "adam")], [("name", Value.str "jessica")]] : List Record).filter
        (fun e => OnlineFilter.matchesAll
          [("name__in", Value.list [.str "lucas", .str "jessica"])] e) :=
  ⟨rfl, claim_C1 _ _ _ rfl⟩

/-- C2: the operator table binds `not_contains` to the same predicate as
`contains`: the table lookups are equal, hence the two operators evaluate
identically on every record, field and target value. -/
theorem claim_C2 :
    OnlineFilter.VALID_OPERATORS.lookup "not_contains" =
      OnlineFilter.VALID_OPERATORS.lookup "contains" ∧
    ∀ (entry : Record) (field : String) (value : Value),
      OnlineFilter.applyOperator "not_contains" entry field value =
        OnlineFilter.applyOperator "contains" entry field value :=
  ⟨rfl, fun _ _ _ => rfl⟩

/-- C3: `CrawlerRepository.all` fails with the configuration error whenever
the required fields are not all among the query keys, regardless of what the
fetch hook would return; otherwise it propagates a fetch error unchanged and
re-filters a fetched list with a filter built from the non-required query
items only. -/
theorem claim_C3 (required : List String) (query : Query)
    (fetched : Except PyError (List Record)) :
    (CrawlerRepository.validQuery required query = false →
      CrawlerRepository.all required query fetched =
        .error (CrawlerRepository.requiredFieldsError required)) ∧
    (CrawlerRepository.validQuery required query = true →
      (∀ e, fetched = .error e →
        CrawlerRepository.all required query fetched = .error e) ∧
      (∀ entries, fetched = .ok entries →
        CrawlerRepository.all required query fetched =
          OnlineFilter.commit
            (query.filter (fun kv => !(required.contains kv.1))) entries)) := by
  refine ⟨fun hv => ?_, fun hv => ⟨fun e he => ?_, fun entries he => ?_⟩⟩
  · simp [CrawlerRepository.all, hv]
  · simp [CrawlerRepository.all, hv, he]
  · simp [CrawlerRepository.all, hv, he]

/-- C3 witness: a missing required field errors before the fetch result is
consulted; with the required field present the fetched list is re-filtered by
the remaining query item only. -/
theorem claim_C3_witness :
    CrawlerRepository.all ["x"] [] (.ok [[("y", Value.int 2)]]) =
      .error (CrawlerRepository.requiredFieldsError ["x"]) ∧
    CrawlerRepository.all ["x"]
      [("x", Value.int 1), ("y__not_equals", Value.int 2)]
      (.ok [[("y", Value.int 2)], [("y", Value.int 3)]]) =
      OnlineFilter.commit [("y__not_equals", Value.int 2)]
        [[("y", Value.int 2)], [("y", Value.int 3)]] := by
  constructor
  · exact (claim_C3 ["x"] [] (.ok [[("y", Value.int 2)]])).1 (by decide)
  · exact ((claim_C3 ["x"] [("x", Value.int 1), ("y__not_equals", Value.int 2)]
      (.ok [[("y", Value.int 2)], [("y", Value.int 3)]])).2 (by decide)).2
      [[("y", Value.int 2)], [("y", Value.int 3)]] rfl

/-- C4: `CrawlerRepository.find` returns a successful fetch unchanged,
converts the lookup-class errors (IndexError, KeyError, UnboundLocalError)
into the uniform not-found KeyError carrying the id, and propagates every
other error unchanged. -/
theorem claim_C4 (ident : String) (r : Record) (e : PyError) :
    (CrawlerRepository.find ident (.ok r) = .ok r) ∧
    (CrawlerRepository.isLookupError e = true →
      CrawlerRepository.find ident (.error e) =
        .error (.keyError ("unknown entry " ++ ident))) ∧
    (CrawlerRepository.isLookupError e = false →
      CrawlerRepository.find ident (.error e) = .error e) := by
  refine ⟨rfl, fun he => ?_, fun he => ?_⟩
  · simp [CrawlerRepository.find, he]
  · simp [CrawlerRepository.find, he]

/-- C4 witness: a KeyError from the hook is replaced by the uniform
not-found error, a TypeError propagates unchanged and a successful record is
returned as is. -/
theorem claim_C4_witness :
    CrawlerRepository.find "42" (.ok [("a", Value.int 1)]) =
      .ok [("a", Value.int 1)] ∧
    CrawlerRepository.find "42" (.error (.keyError "boom")) =
      .error (.keyError ("unknown entry " ++ "42")) ∧
    CrawlerRepository.find "42" (.error .typeError) = .error .typeError :=
  ⟨(claim_C4 "42" [("a", Value.int 1)] .typeError).1,
   (claim_C4 "42" [("a", Value.int 1)] (.keyError "boom")).2.1 (by decide),
   (claim_C4 "42" [("a", Value.int 1)] .typeError).2.2 (by decide)⟩

/-- C5 counterexample: with `count = 0` (given, but falsy in the source test
`if count:`) the call does not return the claimed slice
`[anchor+offset, anchor+count)` (which would be the empty list) but the
single anchored segment. -/
theorem claim_C5_counterexample :
    findByContent (contentSplit "a\nb\nc\nd\n" "\n") "b" 0 (some 0)
      Option.none = .ok (.one "b") ∧
    LocateResult.one "b" ≠
      LocateResult.many (pySlice (contentSplit "a\nb\nc\nd\n" "\n")
        ((1 : Int) + 0) ((1 : Int) + 0)) :=
  ⟨rfl, by decide⟩

/-- C5 (amended: `count` given and non-zero): when some segment contains the
pattern and `anchor` is the first such index, `find_by_content` with a
non-zero `count` returns the slice `[anchor+offset, anchor+count)` of the
segment list, for every offset and every end pattern argument. -/
theorem claim_C5_amended (split : List String) (pattern : String)
    (anchor : Nat) (offset c : Int) (ep : Option String)
    (hc : c ≠ 0)
    (hi : anchor < split.length)
    (hp : strIn pattern (split.getD anchor "") = true)
    (hmin : ∀ j, j < anchor → strIn pattern (split.getD j "") = false) :
    findByContent split pattern offset (some c) ep =
      .ok (.many (pySlice split ((anchor : Int) + offset)
        ((anchor : Int) + c))) := by
  have hf : findFirstIdx (fun piece => strIn pattern piece) split = some anchor :=
    findFirstIdx_eq_some _ "" split anchor hi hp hmin
  have hT : truthyCount (some c) = true := by simp [truthyCount, hc]
  simp [findByContent, hf, hT, Option.getD]

/-- C5 witness: the spec example
`ContentLocator("a\nb\nc\nd\n").locate("b", count=3) == ["b","c","d"]`. -/
theorem claim_C5_witness :
    findByContent (contentSplit "a\nb\nc\nd\n" "\n") "b" 0 (some 3)
      Option.none = .ok (.many ["b", "c", "d"]) :=
  (claim_C5_amended (contentSplit "a\nb\nc\nd\n" "\n") "b" 1 0 3 Option.none
    (by decide) (by decide) (by decide) (by decide)).trans (by decide)

/-- C6 counterexample: with `end_pattern = ""` (given, contained in every
segment from the anchor onward, but falsy in the source test
`elif end_pattern:`) the call does not return the claimed slice
`[anchor+offset, end_idx)` (which would be the empty list, since the first
segment from the anchor containing `""` is the anchor itself) but the single
anchored segment. -/
theorem claim_C6_counterexample :
    locate "x\nSTART\n1\n2\nEND\n" "START" 0 Option.none (some "") =
      .ok (.one "START") ∧
    LocateResult.one "START" ≠
      LocateResult.many (pySlice (contentSplit "x\nSTART\n1\n2\nEND\n" "\n")
        ((1 : Int) + 0) ((1 : Nat) : Int)) :=
  ⟨rfl, by decide⟩

/-- C6 (amended: `end_pattern` given and non-empty): with no count, when some
segment contains the pattern, `anchor` is the first such index and `eIdx` is
the first index at or after the anchor whose segment contains the non-empty
end pattern, `find_by_content` returns the slice `[anchor+offset, eIdx)` of
the segment list. -/
theorem claim_C6_amended (split : List String) (pattern ep : String)
    (anchor eIdx : Nat) (offset : Int)
    (hep : ep ≠ "")
    (hi : anchor < split.length)
    (hp : strIn pattern (split.getD anchor "") = true)
    (hmin : ∀ j, j < anchor → strIn pattern (split.getD j "") = false)
    (hel : eIdx < split.length) (hge : anchor ≤ eIdx)
    (hpe : strIn ep (split.getD eIdx "") = true)
    (hemin : ∀ j, j < eIdx → anchor ≤ j → strIn ep (split.getD j "") = false) :
    findByContent split pattern offset Option.none (some ep) =
      .ok (.many (pySlice split ((anchor : Int) + offset) ((eIdx : Nat) : Int))) := by
  have hf : findFirstIdx (fun piece => strIn pattern piece) split = some anchor :=
    findFirstIdx_eq_some _ "" split anchor hi hp hmin
  have hlen : eIdx - anchor < (split.drop anchor).length := by
    rw [List.length_drop]; omega
  have hpe' : strIn ep ((split.drop anchor).getD (eIdx - anchor) "") = true := by
    rw [getD_drop_eq, Nat.add_sub_cancel' hge]; exact hpe
  have hemin' : ∀ j, j < eIdx - anchor →
      strIn ep ((split.drop anchor).getD j "") = false := by
    intro j hj
    rw [getD_drop_eq]
    exact hemin (anchor + j) (by omega) (by omega)
  have hf2 : findFirstIdx (fun piece => strIn ep piece) (split.drop anchor) =
      some (eIdx - anchor) :=
    findFirstIdx_eq_some _ "" _ _ hlen hpe' hemin'
  have hT : truthyPattern (some ep) = true := by simp [truthyPattern, hep]
  have hadd : anchor + (eIdx - anchor) = eIdx := by omega
  simp [findByContent, hf, truthyCount, hT, Option.getD, hf2, hadd]

/-- C6 witness: the spec example
`ContentLocator("x\nSTART\n1\n2\nEND\n").locate("START", offset=1,
end_pattern="END") == ["1","2"]`. -/
theorem claim_C6_witness :
    findByContent (contentSplit "x\nSTART\n1\n2\nEND\n" "\n") "START" 1
      Option.none (some "END") = .ok (.many ["1", "2"]) :=
  (claim_C6_amended (contentSplit "x\nSTART\n1\n2\nEND\n" "\n") "START" "END"
    1 4 1 (by decide) (by decide) (by decide) (by decide) (by decide)
    (by decide) (by decide) (by decide)).trans (by decide)

/-- C9: when no segment contains the pattern, `find_by_content` fails with
the unset-anchor `UnboundLocalError` for every combination of the offset,
count and end-pattern arguments. -/
theorem claim_C9 (split : List String) (pattern : String)
    (h : ∀ s ∈ split, strIn pattern s = false) :
    ∀ (offset : Int) (count : Option Int) (ep : Option String),
      findByContent split pattern offset count ep =
        .error .unboundLocalError := by
  intro offset count ep
  have hf : findFirstIdx (fun piece => strIn pattern piece) split =
      Option.none := findFirstIdx_eq_none _ split h
  simp [findByContent, hf]

/-- C9 witness: a pattern absent from every segment, with all three optional
arguments supplied. -/
theorem claim_C9_witness :
    findByContent ["a", "b"] "z" 5 (some 2) (some "q") =
      .error .unboundLocalError :=
  claim_C9 ["a", "b"] "z" (by decide) 5 (some 2) (some "q")

/-- C10: `count = 0` is falsy in the source test `if count:`, so the call
behaves exactly as if count were not given at all; in particular, with no end
pattern and an in-range index it returns the single segment at
`anchor + offset`. -/
theorem claim_C10 (split : List String) (pattern : String) (offset : Int) :
    (∀ ep : Option String,
      findByContent split pattern offset (some 0) ep =
        findByContent split pattern offset Option.none ep) ∧
    (∀ anchor : Nat,
      findFirstIdx (fun piece => strIn pattern piece) split = some anchor →
        ∀ s : String, pyGet split ((anchor : Int) + offset) = some s →
          findByContent split pattern offset (some 0) Option.none =
            .ok (.one s)) := by
  constructor
  · intro ep
    cases hf : findFirstIdx (fun piece => strIn pattern piece) split with
    | none => simp [findByContent, hf]
    | some a => simp [findByContent, hf, truthyCount]
  · intro anchor hf s hs
    simp [findByContent, hf, truthyCount, truthyPattern, hs]

/-- C10 witness: `count = 0` on a found pattern returns the single anchored
segment. -/
theorem claim_C10_witness :
    findByContent ["a", "b", "c"] "b" 0 (some 0) Option.none =
      .ok (.one "b") :=
  (claim_C10 ["a", "b", "c"] "b" 0).2 1 (by decide) "b" (by decide)

/-- C7 counterexample: with the supported operator `contains` and a record
lacking the queried field, the membership test `value in None` raises a
`TypeError`, so predicate evaluation does not proceed without exception. -/
theorem claim_C7_counterexample :
    OnlineFilter.commit [("f__contains", Value.str "x")] [([] : Record)] =
      .error .typeError := rfl

/-- C7 (amended): a missing field resolves to the `None` placeholder without
exception, and the placeholder is then used in the comparison or membership
test; for `equals` and `not_equals` this always succeeds, for `in` and
`not_in` it succeeds when the target is a list (testing membership of `None`)
but raises `TypeError` on a string target, and for `contains` and
`not_contains` the membership test in the `None` container always raises
`TypeError`. -/
theorem claim_C7_amended (entry : Record) (field : String) (v : Value)
    (h : entry.lookup field = Option.none) :
    OnlineFilter.applyOperator "equals" entry field v =
      .ok (decide (Value.none = v)) ∧
    OnlineFilter.applyOperator "not_equals" entry field v =
      .ok (decide (Value.none ≠ v)) ∧
    (∀ l, v = Value.list l →
      OnlineFilter.applyOperator "in" entry field v =
        .ok (l.any (fun x => decide (x = Value.none))) ∧
      OnlineFilter.applyOperator "not_in" entry field v =
        .ok (!(l.any (fun x => decide (x = Value.none))))) ∧
    (∀ s, v = Value.str s →
      OnlineFilter.applyOperator "in" entry field v = .error .typeError ∧
      OnlineFilter.applyOperator "not_in" entry field v = .error .typeError) ∧
    OnlineFilter.applyOperator "contains" entry field v = .error .typeError ∧
    OnlineFilter.applyOperator "not_contains" entry field v =
      .error .typeError := by
  have hg : getField entry field = Value.none := by simp [getField, h]
  refine ⟨?_, ?_, ?_, ?_, ?_, ?_⟩
  · rw [OnlineFilter.applyOperator_equals, hg]
  · rw [OnlineFilter.applyOperator_not_equals, hg]
  · intro l hv
    subst hv
    exact ⟨by rw [OnlineFilter.applyOperator_in, hg]; rfl,
      by rw [OnlineFilter.applyOperator_not_in, hg]; rfl⟩
  · intro s hv
    subst hv
    exact ⟨by rw [OnlineFilter.applyOperator_in, hg]; rfl,
      by rw [OnlineFilter.applyOperator_not_in, hg]; rfl⟩
  · rw [OnlineFilter.applyOperator_contains, hg]
    cases v <;> rfl
  · rw [OnlineFilter.applyOperator_not_contains, hg]
    cases v <;> rfl

/-- C7 witness: on the empty record, `equals` compares the `None` placeholder
without exception while `contains` raises `TypeError`. -/
theorem claim_C7_witness :
    ([] : Record).lookup "f" = Option.none ∧
    OnlineFilter.applyOperator "equals" ([] : Record) "f" (Value.str "x") =
      .ok (decide (Value.none = Value.str "x")) ∧
    OnlineFilter.applyOperator "contains" ([] : Record) "f" (Value.str "x") =
      .error .typeError :=
  ⟨rfl, (claim_C7_amended [] "f" (Value.str "x") rfl).1,
   (claim_C7_amended [] "f" (Value.str "x") rfl).2.2.2.2.1⟩

/-- C8 counterexample: the literal keys `not_equals` and `equals` contain no
`__` separator, so each resolves to a field of that name with the default
`equals` operator; on the record list `[{}]` with target `"a"` both filter
results are empty, and their union is not the input list. -/
theorem claim_C8_counterexample :
    OnlineFilter.resolveKey "not_equals" = ("not_equals", "equals") ∧
    OnlineFilter.resolveKey "equals" = ("equals", "equals") ∧
    OnlineFilter.commit [("not_equals", Value.str "a")] [([] : Record)] =
      .ok [] ∧
    OnlineFilter.commit [("equals", Value.str "a")] [([] : Record)] =
      .ok [] ∧
    ([] : List Record) ++ ([] : List Record) ≠ [([] : Record)] :=
  ⟨rfl, rfl, rfl, rfl, by decide⟩

/-- C8 (amended: the two operators invoked through compound keys on a common
field `f`): `QueryFilter` with `f__not_equals: v` and with `f__equals: v`
both succeed, the two result lists are the complementary order-preserving
filters of `R`, they share no element, and their concatenation is a
permutation of `R` (they partition `R` exactly). -/
theorem claim_C8_amended (f : String) (v : Value) (R : List Record)
    (h1 : OnlineFilter.resolveKey (f ++ "__not_equals") = (f, "not_equals"))
    (h2 : OnlineFilter.resolveKey (f ++ "__equals") = (f, "equals")) :
    OnlineFilter.commit [(f ++ "__not_equals", v)] R =
      .ok (R.filter (fun e => decide (getField e f ≠ v))) ∧
    OnlineFilter.commit [(f ++ "__equals", v)] R =
      .ok (R.filter (fun e => decide (getField e f = v))) ∧
    (∀ e, e ∈ R.filter (fun e => decide (getField e f ≠ v)) →
      e ∉ R.filter (fun e => decide (getField e f = v))) ∧
    (R.filter (fun e => decide (getField e f ≠ v)) ++
      R.filter (fun e => decide (getField e f = v))).Perm R := by
  have hm1 : ∀ e : Record,
      OnlineFilter.matchesEntry [(f ++ "__not_equals", v)] e =
        .ok (decide (getField e f ≠ v)) := by
    intro e
    have hev : OnlineFilter.evalPredicate (f ++ "__not_equals", v) e =
        .ok (decide (getField e f ≠ v)) := by
      simp [OnlineFilter.evalPredicate, h1, OnlineFilter.applyOperator_not_equals]
    cases hd : decide (getField e f ≠ v) with
    | false => simp [OnlineFilter.matchesEntry, hev, hd]
    | true => simp [OnlineFilter.matchesEntry, hev, hd]
  have hm2 : ∀ e : Record,
      OnlineFilter.matchesEntry [(f ++ "__equals", v)] e =
        .ok (decide (getField e f = v)) := by
    intro e
    have hev : OnlineFilter.evalPredicate (f ++ "__equals", v) e =
        .ok (decide (getField e f = v)) := by
      simp [OnlineFilter.evalPredicate, h2, OnlineFilter.applyOperator_equals]
    cases hd : decide (getField e f = v) with
    | false => simp [OnlineFilter.matchesEntry, hev, hd]
    | true => simp [OnlineFilter.matchesEntry, hev, hd]
  refine ⟨OnlineFilter.commit_eq_filter _ _ hm1 R,
    OnlineFilter.commit_eq_filter _ _ hm2 R, fun e he1 he2 => ?_, ?_⟩
  · rw [List.mem_filter] at he1 he2
    have hne : getField e f ≠ v := by simpa using he1.2
    have heq : getField e f = v := by simpa using he2.2
    exact hne heq
  · have hfil : R.filter (fun e => decide (getField e f = v)) =
        R.filter (fun e => !(decide (getField e f ≠ v))) := by
      induction R with
      | nil => rfl
      | cons a t ih => simp [List.filter_cons, ih, decide_not]
    rw [hfil]
    exact List.filter_append_perm _ R

/-- C8 witness: the partition on a concrete field and record list. -/
theorem claim_C8_witness :
    OnlineFilter.commit [("year__not_equals", Value.int 1)]
      [[("year", Value.int 1)], [("year", Value.int 2)]] =
      .ok [[("year", Value.int 2)]] ∧
    OnlineFilter.commit [("year__equals", Value.int 1)]
      [[("year", Value.int 1)], [("year", Value.int 2)]] =
      .ok [[("year", Value.int 1)]] ∧
    (([[("year", Value.int 2)]] ++ [[("year", Value.int 1)]]) :
      List Record).Perm [[("year", Value.int 1)], [("year", Value.int 2)]] := by
  have h := claim_C8_amended "year" (Value.int 1)
    [[("year", Value.int 1)], [("year", Value.int 2)]] (by decide) (by decide)
  have e1 : ([[("year", Value.int 1)], [("year", Value.int 2)]] :
      List Record).filter
        (fun e => decide (getField e "year" ≠ Value.int 1)) =
      [[("year", Value.int 2)]] := by decide
  have e2 : ([[("year", Value.int 1)], [("year", Value.int 2)]] :
      List Record).filter
        (fun e => decide (getField e "year" = Value.int 1)) =
      [[("year", Value.int 1)]] := by decide
  refine ⟨?_, ?_, ?_⟩
  · exact h.1.trans (by rw [e1])
  · exact h.2.1.trans (by rw [e2])
  · have hp := h.2.2.2
    rw [e1, e2] at hp
    exact hp

end Unicampi
